import Mathlib

/-!
# Verification of the schedule_microservice scheduling engine

Shallow embedding of the scheduling engine of `schedule_microservice`
(NestJS/TypeScript).  Instants are modelled as natural numbers: milliseconds
since an epoch that falls on a midnight (1970-01-01, a Thursday), with the
local timezone taken as UTC and no DST.  JavaScript `Date` arithmetic
(`getTime`, `getHours`, `setHours(h,0,0,0)`, `setDate(getDate()+1)`) is then
plain arithmetic on milliseconds; `setDate(getDate()+1)` always adds one
civil day, which is `msPerDay` in this model.

The embedded functions keep the source's names:
* `calculateNextRun`, `shouldJobRun`, `shouldRunBasedOnCron`, `executeJob`,
  `checkAndRunJobs` from `src/scheduler/scheduler.service.ts`;
* `JobFactory.createJob` from `src/scheduler/job-factory.ts` (and the second
  observed variant of the same factory, `JobFactory.createJobAlt`);
* the `Job` record from the Prisma schema (`createdAt`/`updatedAt` are not
  consulted by the scheduling logic and are omitted).

The cron evaluator used by the source (`node-cron`) is an external library
whose code is not part of the repository; `validate`, `matches` and
`isNextOccurrence` below are modelled from the spec's description of the
Cron Evaluator (§4.1).
-/

namespace Sched

/-! ## Time model -/

def msPerMinute : Nat := 60000

def msPerHour : Nat := 3600000

def msPerDay : Nat := 86400000

/-- Minute-of-hour component of an instant (JS `getMinutes`). -/
def minuteOf (t : Nat) : Nat := t / msPerMinute % 60

/-- Hour-of-day component of an instant (JS `getHours`). -/
def hourOf (t : Nat) : Nat := t / msPerHour % 24

/-- Civil day index of an instant: whole days since the epoch. -/
def dayIndex (t : Nat) : Nat := t / msPerDay

/-- Day of week of an instant, `0` = Sunday; the epoch day is a Thursday. -/
def dayOfWeekOf (t : Nat) : Nat := (dayIndex t + 4) % 7

/-- Modelled from the spec: calendar components used by the Cron Evaluator
(§4.1), which in the source live inside the external `node-cron` library.
Standard proleptic-Gregorian civil-from-days conversion; returns
`(month, day-of-month)` for a day count since 1970-01-01. -/
def civilMonthDay (days : Nat) : Nat × Nat :=
  let z := days + 719468
  let doe := z % 146097
  let yoe := (doe - doe / 1460 + doe / 36524 - doe / 146096) / 365
  let doy := doe - (365 * yoe + yoe / 4 - yoe / 100)
  let mp := (5 * doy + 2) / 153
  let d := doy - (153 * mp + 2) / 5 + 1
  let m := if mp < 10 then mp + 3 else mp - 9
  (m, d)

/-- Month component (1–12) of an instant. -/
def monthOf (t : Nat) : Nat := (civilMonthDay (dayIndex t)).1

/-- Day-of-month component (1–31) of an instant. -/
def dayOfMonthOf (t : Nat) : Nat := (civilMonthDay (dayIndex t)).2

/-! ## Cron evaluator (modelled from the spec, §4.1) -/

/-- A parsed cron field: `*` ("any") or a comma-separated list of literals. -/
inductive CronField where
  | any : CronField
  | vals : List Nat → CronField
deriving DecidableEq, Repr

/-- Split a character list at every occurrence of a separator character
(the char-level counterpart of `String.splitOn`, kept structurally
recursive so that concrete instances evaluate in the kernel). -/
def splitOnChar (c : Char) : List Char → List (List Char)
  | [] => [[]]
  | x :: xs =>
    match splitOnChar c xs with
    | [] => [[]]
    | r :: rs => if x = c then [] :: r :: rs else (x :: r) :: rs

/-- Read a nonempty all-digit character list as a decimal numeral
(the char-level counterpart of `String.toNat?`). -/
def digitsToNat? (cs : List Char) : Option Nat :=
  if !cs.isEmpty && cs.all Char.isDigit then
    some (cs.foldl (fun n c => 10 * n + (c.toNat - 48)) 0)
  else none

/-- Modelled from the spec: parse one cron field — `*`, a literal in
`[lo, hi]`, or a comma-separated list of such literals (§4.1). -/
def parseField (lo hi : Nat) (cs : List Char) : Option CronField :=
  if cs = ['*'] then some CronField.any
  else
    match (splitOnChar ',' cs).mapM digitsToNat? with
    | some vs =>
        if !vs.isEmpty && vs.all (fun v => lo ≤ v && v ≤ hi) then
          some (CronField.vals vs)
        else none
    | none => none

/-- A parsed five-field cron expression. -/
structure CronExpr where
  minuteF : CronField
  hourF : CronField
  domF : CronField
  monthF : CronField
  dowF : CronField
deriving DecidableEq, Repr

/-- Modelled from the spec: parse a five-field cron expression
(minute 0–59, hour 0–23, day-of-month 1–31, month 1–12, day-of-week 0–6). -/
def parseCron (s : String) : Option CronExpr :=
  match splitOnChar ' ' s.toList with
  | [mi, h, dom, mo, dow] => do
      let mi ← parseField 0 59 mi
      let h ← parseField 0 23 h
      let dom ← parseField 1 31 dom
      let mo ← parseField 1 12 mo
      let dow ← parseField 0 6 dow
      some ⟨mi, h, dom, mo, dow⟩
  | _ => none

/-- Modelled from the spec: `validate(expression)` returns false for
malformed field counts or out-of-range literals and never raises (§4.1).
Stands in for `node-cron`'s `validate`, whose code is not in the repository. -/
def validate (s : String) : Bool := (parseCron s).isSome

/-- Does a cron field accept a component value? -/
def fieldMatches (f : CronField) (v : Nat) : Bool :=
  match f with
  | CronField.any => true
  | CronField.vals vs => vs.contains v

/-- Is a cron field restricted (not `*`)? -/
def isRestricted (f : CronField) : Bool :=
  match f with
  | CronField.any => false
  | CronField.vals _ => true

/-- Modelled from the spec: `matches(expression, instant)` (named `cronMatches`, `matches` being a Lean keyword) — all five fields
match the instant's components at minute resolution, with the standard cron
OR rule when both day-of-month and day-of-week are restricted (§4.1). -/
def cronMatches (s : String) (t : Nat) : Bool :=
  match parseCron s with
  | none => false
  | some e =>
      fieldMatches e.minuteF (minuteOf t) &&
      fieldMatches e.hourF (hourOf t) &&
      fieldMatches e.monthF (monthOf t) &&
      (if isRestricted e.domF && isRestricted e.dowF then
        fieldMatches e.domF (dayOfMonthOf t) || fieldMatches e.dowF (dayOfWeekOf t)
      else
        fieldMatches e.domF (dayOfMonthOf t) && fieldMatches e.dowF (dayOfWeekOf t))

/-- Spec-side definition (the spec's words, for comparison with the code):
`t` is `nextOccurrence(expr, after)` — strictly after `after`, a match, and
no instant strictly between `after` and `t` matches (§4.1, §8). -/
def isNextOccurrence (expr : String) (after t : Nat) : Prop :=
  after < t ∧ cronMatches expr t = true ∧ ∀ u, after < u → u < t → cronMatches expr u = false

/-! ## Data model

The `Job` record of the Prisma schema (`prisma/schema.prisma` /
`prisma/migrations/..._init/migration.sql`).  `createdAt`/`updatedAt` are
record bookkeeping not consulted by the scheduling logic and are omitted;
`lastRun`/`nextRun` are nullable timestamps, hence `Option Nat`. -/

structure Job where
  id : Nat
  name : String
  description : Option String
  schedule : String
  isActive : Bool
  lastRun : Option Nat
  nextRun : Option Nat
deriving DecidableEq, Repr

/-! ## Scheduler service (`src/scheduler/scheduler.service.ts`) -/

/-- `SchedulerService.calculateNextRun`.  The source reads `new Date()` at
entry; that instant is the explicit parameter `now` here.  Four literal
expressions are special-cased and everything else gets "1 hour from now":
* `"* * * * *"` → `now + 60 * 1000`;
* `"0 * * * *"` → `now + 60 * 60 * 1000`;
* `"0 0 * * *"` → tomorrow at `00:00` (`setDate(getDate()+1)` then
  `setHours(0,0,0,0)`);
* `"0 9 * * *"` → today at `09:00` (`setHours(9,0,0,0)`), pushed one day
  later when `now.getHours() >= 9`;
* default → `now + 60 * 60 * 1000`. -/
def calculateNextRun (cronExpression : String) (now : Nat) : Nat :=
  if cronExpression = "* * * * *" then
    now + 60 * 1000
  else if cronExpression = "0 * * * *" then
    now + 60 * 60 * 1000
  else if cronExpression = "0 0 * * *" then
    (dayIndex now + 1) * msPerDay
  else if cronExpression = "0 9 * * *" then
    -- `const next9AM = …; if (now.getHours() >= 9) next9AM.setDate(… + 1)`,
    -- with the `next9AM` binding inlined into both branches
    if 9 ≤ hourOf now then
      dayIndex now * msPerDay + 9 * msPerHour + msPerDay
    else
      dayIndex now * msPerDay + 9 * msPerHour
  else
    now + 60 * 60 * 1000

/-- `SchedulerService.shouldRunBasedOnCron`: the source computes
`minutesSinceLastRun = (now.getTime() - lastRun.getTime()) / 1000 / 60`
(exact division on numbers) and returns `minutesSinceLastRun >= 1`, which
holds iff at least `60000` ms have elapsed.  The cron expression argument is
received but never inspected. -/
def shouldRunBasedOnCron (lastRun now : Nat) (cronExpression : String) : Bool :=
  decide (60000 ≤ (now : Int) - (lastRun : Int))

/-- `SchedulerService.shouldJobRun`:
1. `lastRun` absent (`!job.lastRun`) → `true`;
2. `nextRun` present and `now >= nextRun` → `true`;
3. otherwise, if `cron.validate(schedule)` then the result of
   `shouldRunBasedOnCron` (the `try/catch` around it is dead: `validate`
   never raises);
4. otherwise `false`. -/
def shouldJobRun (job : Job) (now : Nat) : Bool :=
  match job.lastRun with
  | none => true
  | some lastRun =>
    if (match job.nextRun with
        | some nextRun => decide (nextRun ≤ now)
        | none => false) then
      true
    else if validate job.schedule then
      shouldRunBasedOnCron lastRun now job.schedule
    else
      false

/-! ## Executor factory (`src/scheduler/job-factory.ts`) -/

/-- The concrete executor classes implementing `JobExecutor`.  `EmailJob`
(`src/scheduler/jobs/email-job.ts`) is the only one in the repository. -/
inductive ExecutorKind where
  | email : ExecutorKind
deriving DecidableEq, Repr

/-- JS `String.prototype.includes`: substring containment, as infix of the
character lists. -/
def includes (s pat : List Char) : Bool := decide (pat <:+: s)

/-- JS `String.prototype.toLowerCase` on the character-list view (the job
names involved are ASCII, where `Char.toLower` agrees with JS). -/
def toLowerStr (s : String) : List Char := s.toList.map Char.toLower

/-- `JobFactory.createJob` (`src/scheduler/job-factory.ts`, the factory the
scheduler imports): lowercase the name; if it contains `"email"`,
`"notification"` or `"send"`, return `new EmailJob()` — and otherwise fall
through to `return new EmailJob()` as well.  It never throws, so the result
is `Except.ok` in both branches. -/
def JobFactory.createJob (jobName : String) : Except String ExecutorKind :=
  let name := toLowerStr jobName
  if includes name "email".toList ||
      includes name "notification".toList ||
      includes name "send".toList then
    Except.ok ExecutorKind.email
  else
    Except.ok ExecutorKind.email

/-- The second observed variant of the factory (`src/unnamed/part_005`):
only the keyword `"email"` is recognised; any other name raises
`Unknown job name: ...`. -/
def JobFactory.createJobAlt (jobName : String) : Except String ExecutorKind :=
  if includes (toLowerStr jobName) "email".toList then
    Except.ok ExecutorKind.email
  else
    Except.error ("Unknown job name: " ++ jobName)

/-! ## Dispatch and the tick (`src/scheduler/scheduler.service.ts`) -/

/-- Resolution of the awaited `jobExecutor.execute(jobId, jobName)` promise:
it either fulfills (`ok`) or rejects (`error`).  The executor is external
I/O, so the outcome is a parameter of the embedding. -/
inductive ExecOutcome where
  | ok : ExecOutcome
  | error : ExecOutcome
deriving DecidableEq, Repr

/-- The `prisma.job.update` call in `executeJob`: a partial update whose
`data` names only the `lastRun` and `nextRun` columns. -/
def updateRunFields (job : Job) (lastRun nextRun : Nat) : Job :=
  { job with lastRun := some lastRun, nextRun := some nextRun }

/-- `SchedulerService.executeJob`, acting on the dispatched job's record.
The body runs under `try/catch`: capture `startTime = new Date()`, await the
executor, compute `calculateNextRun(schedule)` (which reads `new Date()`
again — `calcTime`; equal to `startTime` when execution is instantaneous),
then write back.  If the executor rejects, the `catch` arm leaves the record
untouched.  The caught error is only logged, so `executeJob` itself never
throws. -/
def executeJob (job : Job) (startTime calcTime : Nat) (outcome : ExecOutcome) : Job :=
  match outcome with
  | ExecOutcome.ok => updateRunFields job startTime (calculateNextRun job.schedule calcTime)
  | ExecOutcome.error => job

/-- The `findMany({ where: { isActive: true } })` fetch in
`checkAndRunJobs`. -/
def activeJobs (jobs : List Job) : List Job :=
  jobs.filter (fun j => j.isActive)

/-- The jobs a tick dispatches: the active jobs for which `shouldJobRun`
answers `true` at the tick's captured `now`. -/
def dueJobs (jobs : List Job) (now : Nat) : List Job :=
  (activeJobs jobs).filter (fun j => shouldJobRun j now)

/-- `SchedulerService.checkAndRunJobs`, as the evolution of the job store
across one tick: fetch the active jobs, capture `now` once, and for each
job run `executeJob` when `shouldJobRun` says so.  Rows that are inactive or
not due are untouched, so the tick is a single pass over the store.
`startOf`/`calcOf` give each dispatched job its two clock readings and
`outcome` its executor result; since `executeJob` swallows its errors and
the loop `await`s each job in turn, every job is processed regardless of the
outcomes of the previous ones. -/
def checkAndRunJobs (jobs : List Job) (now : Nat)
    (startOf calcOf : Job → Nat) (outcome : Job → ExecOutcome) : List Job :=
  jobs.map fun job =>
    if job.isActive && shouldJobRun job now then
      executeJob job (startOf job) (calcOf job) (outcome job)
    else
      job

/-! ## Concrete job records used in counterexamples and witnesses -/

/-- An hourly job about to be dispatched at 10:30 of epoch day 0. -/
def jobHourly : Job := ⟨1, "hourly report", none, "0 * * * *", true, none, none⟩

/-- A never-run every-minute job (scenario A of the spec). -/
def jobEveryMinute : Job := ⟨2, "minute job", none, "* * * * *", true, none, none⟩

/-- A job with a scheduling commitment `nextRun = 300000` still in the
future at `now = 120000`. -/
def jobCommitted : Job := ⟨3, "cleanup", none, "* * * * *", true, some 0, some 300000⟩

/-- A job with `lastRun` present and `nextRun` absent. -/
def jobFallback : Job := ⟨4, "fallback job", none, "* * * * *", true, some 0, none⟩

/-- A freshly created job: `lastRun` absent, `nextRun` set, schedule not
even a cron expression. -/
def jobFresh : Job := ⟨5, "fresh job", none, "not a cron", true, none, some 999999999⟩

/-- An inactive job that would otherwise be due (`lastRun` absent). -/
def jobInactive : Job := ⟨6, "disabled job", none, "* * * * *", false, none, none⟩

/-- A due job whose executor succeeds. -/
def jobA : Job := ⟨7, "alpha", none, "* * * * *", true, none, none⟩

/-- A due job whose executor fails (see `outcomeW`). -/
def jobFailing : Job := ⟨8, "beta", none, "* * * * *", true, none, none⟩

/-- Another due job whose executor succeeds. -/
def jobB : Job := ⟨9, "gamma", none, "* * * * *", true, none, none⟩

/-- Executor outcomes for the witness tick: only `jobFailing` (id 8)
rejects. -/
def outcomeW : Job → ExecOutcome :=
  fun j => if j.id = 8 then ExecOutcome.error else ExecOutcome.ok

/-! ## Theorems -/

/-- Helper: the `"0 9 * * *"` branch of `calculateNextRun`, isolated. -/
theorem calculateNextRun_9am_eq (now : Nat) :
    calculateNextRun "0 9 * * *" now =
      if 9 ≤ hourOf now then dayIndex now * msPerDay + 9 * msPerHour + msPerDay
      else dayIndex now * msPerDay + 9 * msPerHour := by
  unfold calculateNextRun
  rw [if_neg (by decide), if_neg (by decide), if_neg (by decide), if_pos rfl]

/-- C1 (counterexample): dispatched successfully at `startTime =
10:30:00.000` of epoch day 0 (37800000 ms) with schedule `"0 * * * *"`, the
write-back stores `nextRun = 41400000` (11:30), which is *not* the cron
evaluator's earliest match strictly after `startTime`: 39600000 (11:00)
already matches. -/
theorem executeJob_nextRun_not_earliest_match :
    (executeJob jobHourly 37800000 37800000 ExecOutcome.ok).lastRun = some 37800000 ∧
    (executeJob jobHourly 37800000 37800000 ExecOutcome.ok).nextRun = some 41400000 ∧
    cronMatches "0 * * * *" 39600000 = true ∧
    ¬ isNextOccurrence "0 * * * *" 37800000 41400000 := by
  refine ⟨rfl, by decide, by decide, ?_⟩
  rintro ⟨-, -, h⟩
  exact absurd (h 39600000 (by decide) (by decide)) (by decide)

/-- C1 (amended, proved): on a successful dispatch the write-back sets
`lastRun` to the captured `startTime` and `nextRun` to the hardcoded
pattern table's value at the instant `calculateNextRun` reads the clock
(not to the cron evaluator's earliest match); in particular for
`"* * * * *"` the stored `nextRun` is that instant plus one minute. -/
theorem executeJob_writeback (job : Job) (startTime calcTime : Nat) :
    (executeJob job startTime calcTime ExecOutcome.ok).lastRun = some startTime ∧
    (executeJob job startTime calcTime ExecOutcome.ok).nextRun =
      some (calculateNextRun job.schedule calcTime) ∧
    (job.schedule = "* * * * *" →
      (executeJob job startTime calcTime ExecOutcome.ok).nextRun =
        some (calcTime + 60000)) := by
  refine ⟨rfl, rfl, fun h => ?_⟩
  simp [executeJob, updateRunFields, calculateNextRun, h]

/-- Witness for `executeJob_writeback`: scenario A at `T = 600000`
(00:10), schedule `"* * * * *"` — stored `lastRun = T`,
`nextRun = T + 60000`. -/
theorem executeJob_writeback_witness :
    (executeJob jobEveryMinute 600000 600000 ExecOutcome.ok).lastRun = some 600000 ∧
    (executeJob jobEveryMinute 600000 600000 ExecOutcome.ok).nextRun = some 660000 := by
  obtain ⟨h1, -, h3⟩ := executeJob_writeback jobEveryMinute 600000 600000
  exact ⟨h1, h3 rfl⟩

/-- C2 (code bug, evaluated at the failing input): `"0 * * * *"` is a valid
expression, yet at `T = 37800000` (10:30) `calculateNextRun` answers
41400000 (11:30), skipping the strictly earlier match 39600000 (11:00) —
and 41400000 itself does not even satisfy `matches`.  So the answer is
neither a match nor the earliest one. -/
theorem calculateNextRun_skips_cron_match :
    validate "0 * * * *" = true ∧
    calculateNextRun "0 * * * *" 37800000 = 41400000 ∧
    cronMatches "0 * * * *" 39600000 = true ∧
    37800000 < 39600000 ∧ 39600000 < 41400000 ∧
    cronMatches "0 * * * *" 41400000 = false ∧
    ¬ isNextOccurrence "0 * * * *" 37800000 41400000 := by
  refine ⟨by decide, by decide, by decide, by decide, by decide, by decide, ?_⟩
  rintro ⟨-, h2, -⟩
  exact absurd h2 (by decide)

/-- C3 (counterexample): an active job with `lastRun = 0` and a scheduling
commitment `nextRun = 300000` still in the future at `now = 120000` — the
claim says "not due" — is nevertheless selected, because `shouldJobRun`
falls back to the cron-based check (`"* * * * *"` validates and two minutes
have elapsed since `lastRun`). -/
theorem shouldJobRun_cron_fallback_fires :
    jobCommitted.isActive = true ∧
    jobCommitted.lastRun = some 0 ∧
    jobCommitted.nextRun = some 300000 ∧
    ¬ (300000 ≤ 120000) ∧
    shouldJobRun jobCommitted 120000 = true := by
  exact ⟨rfl, rfl, rfl, by decide, by decide⟩

/-- C3 (amended, proved): for an active job with `lastRun` present, when it
is not the case that `nextRun` is present with `now ≥ nextRun`, the
selector does *not* simply answer "not due": it re-derives due-ness from
the schedule expression, answering due iff the expression validates and at
least one minute has elapsed since `lastRun`. -/
theorem shouldJobRun_fallback_rule (job : Job) (lastRun now : Nat)
    (hl : job.lastRun = some lastRun)
    (hn : ∀ nextRun, job.nextRun = some nextRun → now < nextRun) :
    shouldJobRun job now =
      (validate job.schedule && shouldRunBasedOnCron lastRun now job.schedule) := by
  unfold shouldJobRun
  rw [hl]
  cases hnr : job.nextRun with
  | none =>
      cases hv : validate job.schedule with
      | false => simp [hv]
      | true => simp [hv]
  | some nr =>
      have hlt : ¬ nr ≤ now := Nat.not_le.mpr (hn nr hnr)
      cases hv : validate job.schedule with
      | false => simp [hv, hlt]
      | true => simp [hv, hlt]

/-- Witness for `shouldJobRun_fallback_rule`: `jobFallback` has
`lastRun = some 0`, `nextRun = none`; at `now = 120000` the fallback rule
applies and fires. -/
theorem shouldJobRun_fallback_rule_witness :
    (shouldJobRun jobFallback 120000 =
      (validate jobFallback.schedule && shouldRunBasedOnCron 0 120000 jobFallback.schedule)) ∧
    shouldJobRun jobFallback 120000 = true := by
  refine ⟨shouldJobRun_fallback_rule jobFallback 0 120000 rfl ?_, by decide⟩
  intro nr h
  simp [jobFallback] at h

/-- C4 (confirmed): when a dispatched job's executor invocation fails, the
`catch` arm of `executeJob` leaves its record unchanged — the job reappears
verbatim in the post-tick store — and the tick still processes every other
job exactly as it would have: the store segments before and after the
failing job evolve as their own ticks. -/
theorem checkAndRunJobs_failure_isolated (l1 l2 : List Job) (job : Job) (now : Nat)
    (startOf calcOf : Job → Nat) (outcome : Job → ExecOutcome)
    (h : outcome job = ExecOutcome.error) :
    checkAndRunJobs (l1 ++ job :: l2) now startOf calcOf outcome =
      checkAndRunJobs l1 now startOf calcOf outcome ++
        job :: checkAndRunJobs l2 now startOf calcOf outcome := by
  unfold checkAndRunJobs
  simp [h, executeJob]

/-- Witness for `checkAndRunJobs_failure_isolated`: a three-job tick where
only `jobFailing` (id 8) rejects. -/
theorem checkAndRunJobs_failure_isolated_witness :
    checkAndRunJobs [jobA, jobFailing, jobB] 0 (fun _ => 0) (fun _ => 0) outcomeW =
      checkAndRunJobs [jobA] 0 (fun _ => 0) (fun _ => 0) outcomeW ++
        jobFailing :: checkAndRunJobs [jobB] 0 (fun _ => 0) (fun _ => 0) outcomeW :=
  checkAndRunJobs_failure_isolated [jobA] [jobB] jobFailing 0
    (fun _ => 0) (fun _ => 0) outcomeW (by decide)

/-- C5 (confirmed): a job with `isActive = false` is never among the jobs a
tick dispatches — whatever its `lastRun`/`nextRun` — because the tick's
fetch filters on `isActive: true`; and the tick leaves its record verbatim
while the rest of the store evolves as usual. -/
theorem checkAndRunJobs_inactive_untouched (l1 l2 jobs : List Job) (job : Job) (now : Nat)
    (startOf calcOf : Job → Nat) (outcome : Job → ExecOutcome)
    (h : job.isActive = false) :
    job ∉ dueJobs jobs now ∧
    checkAndRunJobs (l1 ++ job :: l2) now startOf calcOf outcome =
      checkAndRunJobs l1 now startOf calcOf outcome ++
        job :: checkAndRunJobs l2 now startOf calcOf outcome := by
  constructor
  · intro hmem
    have h1 : job ∈ activeJobs jobs := List.mem_of_mem_filter hmem
    have h2 : job.isActive = true := List.of_mem_filter h1
    rw [h] at h2
    exact Bool.false_ne_true h2
  · unfold checkAndRunJobs
    simp [h]

/-- Witness for `checkAndRunJobs_inactive_untouched`: `jobInactive` would
be due by every other rule (`lastRun` absent) but is skipped. -/
theorem checkAndRunJobs_inactive_untouched_witness :
    jobInactive ∉ dueJobs [jobA, jobInactive] 0 ∧
    checkAndRunJobs [jobA, jobInactive, jobB] 0 (fun _ => 0) (fun _ => 0) outcomeW =
      checkAndRunJobs [jobA] 0 (fun _ => 0) (fun _ => 0) outcomeW ++
        jobInactive :: checkAndRunJobs [jobB] 0 (fun _ => 0) (fun _ => 0) outcomeW :=
  checkAndRunJobs_inactive_untouched [jobA] [jobB] [jobA, jobInactive] jobInactive 0
    (fun _ => 0) (fun _ => 0) outcomeW (by decide)

/-- C6 (confirmed): `JobFactory.createJob` — the factory the scheduler
imports — returns the email executor for *every* name and never throws: a
name whose lowercase form contains `"email"`, `"notification"` or `"send"`
gets the email variant without raising, and every other name falls back to
the default variant, which is the same `EmailJob`. -/
theorem createJob_always_email_variant (jobName : String) :
    JobFactory.createJob jobName = Except.ok ExecutorKind.email := by
  unfold JobFactory.createJob
  exact ite_self _

/-- The second observed factory variant (`src/unnamed/part_005`) instead
raises `UnknownJobType`-style errors: it recognises only `"email"`, so even
a name containing `"send"`/`"notification"` raises. -/
theorem createJobAlt_raises_for_send :
    JobFactory.createJobAlt "Send Notification" =
      Except.error "Unknown job name: Send Notification" := by rfl

/-- C7 (confirmed): scenario B — with schedule `"0 9 * * *"`, at 08:00 of
any day `d` the computed next run is 09:00 of the same day, and at 10:00 it
is 09:00 of the next day. -/
theorem calculateNextRun_daily_9am_scenario (d : Nat) :
    calculateNextRun "0 9 * * *" (d * msPerDay + 8 * msPerHour) =
      d * msPerDay + 9 * msPerHour ∧
    calculateNextRun "0 9 * * *" (d * msPerDay + 10 * msPerHour) =
      (d + 1) * msPerDay + 9 * msPerHour := by
  constructor
  · rw [calculateNextRun_9am_eq]
    have h : ¬ (9 ≤ hourOf (d * msPerDay + 8 * msPerHour)) := by
      simp only [hourOf, msPerDay, msPerHour]
      omega
    rw [if_neg h]
    simp only [dayIndex, msPerDay, msPerHour]
    omega
  · rw [calculateNextRun_9am_eq]
    have h : 9 ≤ hourOf (d * msPerDay + 10 * msPerHour) := by
      simp only [hourOf, msPerDay, msPerHour]
      omega
    rw [if_pos h]
    simp only [dayIndex, msPerDay, msPerHour]
    omega

/-- C8 (confirmed): the successful-dispatch write-back is a partial update
naming only `lastRun` and `nextRun`; the job's identity, `name`,
`description`, `schedule` and `isActive` survive it unchanged. -/
theorem executeJob_partial_update_frame (job : Job) (startTime calcTime : Nat) :
    (executeJob job startTime calcTime ExecOutcome.ok).id = job.id ∧
    (executeJob job startTime calcTime ExecOutcome.ok).name = job.name ∧
    (executeJob job startTime calcTime ExecOutcome.ok).description = job.description ∧
    (executeJob job startTime calcTime ExecOutcome.ok).schedule = job.schedule ∧
    (executeJob job startTime calcTime ExecOutcome.ok).isActive = job.isActive :=
  ⟨rfl, rfl, rfl, rfl, rfl⟩

/-- C9 (confirmed): a job whose `lastRun` is absent is declared due by
`shouldJobRun` no matter what `now`, `nextRun` or `schedule` are — the
`!job.lastRun` guard returns before either is consulted. -/
theorem shouldJobRun_first_run_due (job : Job) (now : Nat) (h : job.lastRun = none) :
    shouldJobRun job now = true := by
  unfold shouldJobRun
  rw [h]

/-- Witness for `shouldJobRun_first_run_due`: `jobFresh` has a `nextRun`
far in the future and a schedule that is not even a cron expression, yet is
due at `now = 0`. -/
theorem shouldJobRun_first_run_due_witness : shouldJobRun jobFresh 0 = true :=
  shouldJobRun_first_run_due jobFresh 0 rfl

/-- C10 (confirmed): `calculateNextRun` is a total function — in
particular it never throws and has no unsatisfiable-schedule signal — whose
answer is strictly greater than the current instant for *every* schedule
string, and any expression other than the four recognised patterns
(malformed and never-matching ones included) receives exactly
`now + 3600000` (one hour). -/
theorem calculateNextRun_total_default (cronExpression : String) (now : Nat) :
    now < calculateNextRun cronExpression now ∧
    (cronExpression ≠ "* * * * *" → cronExpression ≠ "0 * * * *" →
     cronExpression ≠ "0 0 * * *" → cronExpression ≠ "0 9 * * *" →
     calculateNextRun cronExpression now = now + 3600000) := by
  constructor
  · unfold calculateNextRun hourOf dayIndex msPerDay msPerHour
    repeat' split
    all_goals omega
  · intro h1 h2 h3 h4
    unfold calculateNextRun
    rw [if_neg h1, if_neg h2, if_neg h3, if_neg h4]

/-- Witness for `calculateNextRun_total_default`: `"0 0 * * 0"` (every
Sunday midnight, a pattern the table does not recognise) at `now = 0` gets
`0 + 3600000`. -/
theorem calculateNextRun_total_default_witness :
    0 < calculateNextRun "0 0 * * 0" 0 ∧ calculateNextRun "0 0 * * 0" 0 = 0 + 3600000 :=
  ⟨(calculateNextRun_total_default "0 0 * * 0" 0).1,
   (calculateNextRun_total_default "0 0 * * 0" 0).2
     (by decide) (by decide) (by decide) (by decide)⟩

end Sched
